import Mathlib

/-!
Verification of the DENTIST workflow engine (dentist-workflow-engine) against
its natural-language specification.  The Python source is shallowly embedded:
file systems become partial maps from paths to mtimes (or contents), the
orchestrator state becomes an explicit record, executors become oracles that
transform the file system, and Python exceptions become `Except` values.
-/

namespace Dentist

/-- A file path (Python `pathlib.Path`), identified by its string rendering. -/
abbrev Path := String

/-- File-system view used by the freshness logic: maps a path to its mtime
(`none` = the file does not exist).  Mtimes are modelled as integers; the
engine only ever compares them. -/
abbrev FS := Path → Option Int

/-- Extended time line: Python's `float("-inf")`, a finite mtime, and
`float("inf")`, which seed the `max`/`min` folds in
`Workflow.check_up_to_date` and `Workflow._check_outputs`. -/
inductive ETime where
  | negInf : ETime
  | fin : Int → ETime
  | posInf : ETime
deriving DecidableEq

/-- Order on `ETime` (the comparison Python performs on floats with infinities). -/
def ETime.le : ETime → ETime → Bool
  | .negInf, _ => true
  | .fin _, .posInf => true
  | .fin a, .fin b => decide (a ≤ b)
  | .fin _, .negInf => false
  | .posInf, .posInf => true
  | .posInf, _ => false

/-- Strict order on `ETime`. -/
def ETime.lt (a b : ETime) : Bool := !(ETime.le b a)

/-- Python `max` on two extended times. -/
def ETime.max (a b : ETime) : ETime := if ETime.le a b then b else a

/-- Python `min` on two extended times. -/
def ETime.min (a b : ETime) : ETime := if ETime.le a b then a else b

/-- Job state (`JobState` enum in workflow.py). -/
inductive JobState where
  | done : JobState
  | waiting : JobState
  | failed : JobState
deriving DecidableEq, BEq

/-- Action variants (`actions.py`): `ShellScript` or `PythonCode`.  The script
contents and the wrapped callable are irrelevant to the claims and are not
modelled. -/
inductive ActionKind where
  | shellScript : ActionKind
  | pythonCode : ActionKind
deriving DecidableEq

/-- Modelled from the spec: the `local_only` attribute of actions is read by
`Job.__init__` (workflow.py line 728) but no action class under `src/`
defines it; per the spec, the *PythonCode* variant is local-only and
*ShellScript* is not. -/
def ActionKind.local_only : ActionKind → Bool
  | .pythonCode => true
  | .shellScript => false

/-- A pre or post condition attached to a job.  The engine's built-in
conditions (`Workflow.check_inputs`, `Workflow.check_up_to_date`) are
distinguished constructors; any user-supplied callable is abstracted by the
predicate "does it raise on this file system", evaluated on the job's inputs
and outputs (the fields the engine injects). -/
inductive JCond where
  | checkInputs : JCond
  | checkUpToDate : JCond
  | custom (raises : FS → List Path → List Path → Bool) : JCond

/-- A job (class `Job` in workflow.py).  `index` abstracts `None | int`
(`MultiIndex` rendering is irrelevant to the claims); `threads` is
`resources.get("threads", 1)`. -/
structure Job where
  name : String
  index : Option Int
  exec_local : Bool
  inputs : List Path
  outputs : List Path
  action : ActionKind
  threads : Nat
  state : JobState
  exit_code : Int
  pre_conditions : List JCond
  post_conditions : List JCond

/-- Python exceptions surfaced by the engine. -/
inductive PyErr where
  | missingInputs (missing : List Path) : PyErr
  | incompleteOutputs : PyErr
  | duplicateJob : PyErr
  | jobFailed (job : Job) : PyErr
  | jobBatchFailed : PyErr
  | detachedJobsFailed : PyErr
  | fileNotFound (p : Path) : PyErr
  | valueError (msg : String) : PyErr
  | typeError : PyErr
  | assertionError : PyErr
  | generic (msg : String) : PyErr

/-- `path.stat().st_mtime`: raises `FileNotFoundError` when the file is
missing. -/
def statMtime (fs : FS) (p : Path) : Except PyErr Int :=
  match fs p with
  | some t => .ok t
  | none => .error (.fileNotFound p)

/-- The fold underlying `max(float("-inf"), float("-inf"), *(…))`: stat each
input left to right, raising on the first missing one, and accumulate the
maximum. -/
def inputMtimeAux (fs : FS) (acc : ETime) : List Path → Except PyErr ETime
  | [] => .ok acc
  | p :: ps =>
    match statMtime fs p with
    | .error e => .error e
    | .ok t => inputMtimeAux fs (ETime.max acc (.fin t)) ps

/-- `max(float("-inf"), float("-inf"), *(input.stat().st_mtime for input in
inputs))` — the input-side computation shared by `Workflow.check_up_to_date`
and `Workflow._check_outputs`. -/
def inputMtime (fs : FS) (ins : List Path) : Except PyErr ETime :=
  inputMtimeAux fs ETime.negInf ins

/-- Total variant of the input-side fold, agreeing with `inputMtime` when
every input exists: the maximum input mtime, `-∞` when there are no
inputs. -/
def inputMtimeDAux (fs : FS) (acc : ETime) : List Path → ETime
  | [] => acc
  | p :: ps =>
    inputMtimeDAux fs
      (ETime.max acc (match fs p with | some t => .fin t | none => ETime.negInf)) ps

/-- The maximum input mtime (`-∞` for no inputs), as a total function. -/
def inputMtimeD (fs : FS) (ins : List Path) : ETime :=
  inputMtimeDAux fs ETime.negInf ins

/-- The fold underlying the output-side `min`: a missing output contributes
`-∞` (`output.exists()` is checked first, so nothing raises here). -/
def outputMtimeAux (fs : FS) (acc : ETime) : List Path → ETime
  | [] => acc
  | p :: ps =>
    outputMtimeAux fs
      (ETime.min acc (match fs p with | some t => .fin t | none => ETime.negInf)) ps

/-- `min(float("inf"), float("inf"), *(output.stat().st_mtime if
output.exists() else float("-inf") for output in outputs))` — the output-side
computation of `Workflow.check_up_to_date`. -/
def outputMtime (fs : FS) (outs : List Path) : ETime :=
  outputMtimeAux fs ETime.posInf outs

/-- `Workflow.check_up_to_date` (workflow.py lines 440-459): raises
"missing outputs" when the output minimum is `-∞`, raises "inputs are newer
than outputs" when the input maximum exceeds the output minimum, returns
normally otherwise. -/
def check_up_to_date (fs : FS) (ins outs : List Path) : Except PyErr Unit :=
  match inputMtime fs ins with
  | .error e => .error e
  | .ok input_mtime =>
    let output_mtime := outputMtime fs outs
    if output_mtime = ETime.negInf then .error (.generic "missing outputs")
    else if ETime.lt output_mtime input_mtime then
      .error (.generic "inputs are newer than outputs")
    else .ok ()

/-- `Workflow._check_outputs` (workflow.py lines 427-438): the list of
outputs that are missing or older than the newest input; stats the inputs, so
it raises when an input is missing. -/
def check_outputs_list (fs : FS) (ins outs : List Path) : Except PyErr (List Path) :=
  match inputMtime fs ins with
  | .error e => .error e
  | .ok input_mtime =>
    .ok (outs.filter (fun o =>
      match fs o with
      | none => true
      | some t => ETime.lt (.fin t) input_mtime))

/-- `util.throws`: whether running the wrapped callable raised. -/
def pyThrows (r : Except PyErr Unit) : Bool :=
  match r with
  | .ok _ => false
  | .error _ => true

/-- Run one condition on a job's injected fields.  `Workflow.check_inputs`
collects the inputs that do not exist and raises `MissingInputs` when there
are any; `Workflow.check_up_to_date` is the freshness check; a user-supplied
condition raises according to its abstracted behaviour. -/
def runCond (fs : FS) (ins outs : List Path) : JCond → Except PyErr Unit
  | .checkInputs =>
    let missing := ins.filter (fun p => (fs p).isNone)
    if missing.length > 0 then .error (.missingInputs missing) else .ok ()
  | .checkUpToDate => check_up_to_date fs ins outs
  | .custom raises =>
    if raises fs ins outs then .error (.generic "user condition failed") else .ok ()

/-- Run a list of conditions in order, stopping at the first raise
(`Job.check_pre_conditions` / `Job.check_post_conditions`). -/
def runConds (fs : FS) (ins outs : List Path) : List JCond → Except PyErr Unit
  | [] => .ok ()
  | c :: cs =>
    match runCond fs ins outs c with
    | .error e => .error e
    | .ok _ => runConds fs ins outs cs

/-- `job.check_pre_conditions()`. -/
def Job.check_pre_conditions (fs : FS) (j : Job) : Except PyErr Unit :=
  runConds fs j.inputs j.outputs j.pre_conditions

/-- `job.check_post_conditions(return_bool=True)`: `not throws(...)`. -/
def Job.post_check (fs : FS) (j : Job) : Bool :=
  !(pyThrows (runConds fs j.inputs j.outputs j.post_conditions))

/-- `Workflow.__preprare_params` condition wiring: the built-in input check
is inserted in front of the user pre-conditions and the built-in up-to-date
check is appended after the user post-conditions. -/
def prepareConditions (pre post : List JCond) : List JCond × List JCond :=
  (JCond.checkInputs :: pre, post ++ [JCond.checkUpToDate])

/-- The per-name slot of `Workflow.jobs`: either a single unindexed job or a
dict from index to job. -/
inductive RegEntry where
  | single (job : Job) : RegEntry
  | indexed (m : Int → Option Job) : RegEntry

/-- The job registry `Workflow.jobs`, a dict keyed by job name (modelled as a
partial map). -/
abbrev Registry := String → Option RegEntry

/-- Registry insertion of `Workflow.__collect_job` (workflow.py lines
405-417).  An unindexed job occupies the name slot itself; an indexed job
lives in a nested dict.  A second job with the same name and index raises
`DuplicateJob`; an indexed job whose name slot already holds an unindexed job
hits `job_id not in jobs_db` on a `Job` object, a Python `TypeError`. -/
def registryInsert (r : Registry) (job : Job) : Except PyErr Registry :=
  match job.index with
  | none =>
    match r job.name with
    | none => .ok (fun n => if n = job.name then some (.single job) else r n)
    | some _ => .error .duplicateJob
  | some i =>
    match r job.name with
    | none =>
      .ok (fun n =>
        if n = job.name then some (.indexed (fun k => if k = i then some job else none))
        else r n)
    | some (.single _) => .error .typeError
    | some (.indexed m) =>
      match m i with
      | some _ => .error .duplicateJob
      | none =>
        .ok (fun n =>
          if n = job.name then some (.indexed (fun k => if k = i then some job else m k))
          else r n)

/-- Registry lookup: the job registered under a name and optional index. -/
def regLookup (r : Registry) (name : String) (index : Option Int) : Option Job :=
  match index, r name with
  | none, some (.single j) => some j
  | some i, some (.indexed m) => m i
  | _, _ => none

/-- Orchestrator state: pending queue, registry, group mode and accumulated
group batches, plus the configuration flags `__finalize_queue` and
`__collect_job` read from `self`. -/
structure WFState where
  job_queue : List Job
  jobs : Registry
  collect_group : Bool
  group_job_batches : List (List Job)
  force : Bool
  dry_run : Bool
  print_commands : Bool
  threads : Nat

/-- `Workflow.__collect_job` (workflow.py lines 391-419).  In group mode the
job is appended to the queue unconditionally; otherwise the pre-conditions
run (raising on failure), the post-conditions are evaluated once, and the job
is queued iff `force` or the post-check failed.  Only then is the registry
insertion attempted, so a `DuplicateJob` raise leaves the queue already
mutated. -/
def collectJob (fs : FS) (st : WFState) (job : Job) : Except PyErr Unit × WFState :=
  let queueRes : Except PyErr (List Job) :=
    if st.collect_group then .ok (st.job_queue ++ [job])
    else
      match Job.check_pre_conditions fs job with
      | .error e => .error e
      | .ok _ =>
        let post_check := Job.post_check fs job
        if st.force || !post_check then .ok (st.job_queue ++ [job])
        else .ok st.job_queue
  match queueRes with
  | .error e => (.error e, st)
  | .ok queue1 =>
    match registryInsert st.jobs job with
    | .ok jobs1 => (.ok (), { st with job_queue := queue1, jobs := jobs1 })
    | .error e => (.error e, { st with job_queue := queue1 })

/-- Outcome of one executor invocation: normal return, or the exception it
let escape (`JobFailed` carries the failing job; `JobBatchFailed` and
`DetachedJobsFailed` are distinct classes NOT caught by the `except
JobFailed` clause of `Workflow.__finalize_queue`). -/
inductive ExecOutcome where
  | ok : ExecOutcome
  | jobFailed (job : Job) : ExecOutcome
  | jobBatchFailed : ExecOutcome
  | detachedJobsFailed : ExecOutcome

/-- Behaviour of an executor's non-dry `_run_jobs` on a batch: it may change
the file system arbitrarily (it runs the jobs' commands) and mutates the
batch's job states in place (returned as an updated list, same length and
order), then returns or raises.  The flags (`force`, `print_commands`,
`threads`) are considered pre-applied to the oracle. -/
abbrev ExecRun := List Job → FS → FS × List Job × ExecOutcome

/-- `job.done()`: transition to DONE with exit code 0 (the source asserts the
job was still WAITING, which holds for freshly queued jobs). -/
def markDone (j : Job) : Job := { j with state := JobState.done, exit_code := 0 }

/-- `AbstractExecutor.__call__` (executors.py lines 23-35): in a dry run,
`_dry_run` marks jobs DONE and prints them ONLY inside the
`if print_commands:` branch — with `print_commands` unset it does nothing at
all; otherwise `_run_jobs` runs. -/
def execCall (run : ExecRun) (jobs : List Job) (fs : FS)
    (dry_run print_commands : Bool) : FS × List Job × ExecOutcome :=
  if dry_run then
    if print_commands then (fs, jobs.map markDone, ExecOutcome.ok)
    else (fs, jobs, ExecOutcome.ok)
  else run jobs fs

/-- `util.discard_files`: unlink every listed path (`missing_ok=True`;
directories are removed recursively, which in this flat-file model is the
same removal). -/
def discardFiles (fs : FS) (files : List Path) : FS :=
  fun p => if p ∈ files then none else fs p

/-- Zip the updated normal and local job lists back onto the original queue
order: the Python queue aliases the very objects the executors mutated, and
the two partitions `[j for j in queue if j.exec_local]` / `[... if not
j.exec_local]` are order-preserving, so the queue's view is reconstructed by
taking from each updated list according to each queue entry's flag. -/
def mergeByFlag : List Job → List Job → List Job → List Job
  | [], _, _ => []
  | q :: qs, ns, ls =>
    if q.exec_local then
      match ls with
      | l :: ls1 => l :: mergeByFlag qs ns ls1
      | [] => q :: mergeByFlag qs ns []
    else
      match ns with
      | n :: ns1 => n :: mergeByFlag qs ns1 ls
      | [] => q :: mergeByFlag qs [] ls

/-- The `try` block of `Workflow.__finalize_queue`: run the normal batch
first, then the local batch (each only when non-empty), threading the file
system; stop at the first escaping exception.  Returns the final file
system, the updated normal and local partitions, and the outcome. -/
def tryRunBatches (runNormal runLocal : ExecRun) (fs : FS) (st : WFState)
    : FS × List Job × List Job × ExecOutcome :=
  let local_jobs := st.job_queue.filter (fun j => j.exec_local)
  let normal_jobs := st.job_queue.filter (fun j => !j.exec_local)
  let step1 :=
    if normal_jobs.length > 0 then
      execCall runNormal normal_jobs fs st.dry_run st.print_commands
    else (fs, normal_jobs, ExecOutcome.ok)
  match step1 with
  | (fs1, normal1, ExecOutcome.ok) =>
    let step2 :=
      if local_jobs.length > 0 then
        execCall runLocal local_jobs fs1 st.dry_run st.print_commands
      else (fs1, local_jobs, ExecOutcome.ok)
    match step2 with
    | (fs2, local1, out2) => (fs2, normal1, local1, out2)
  | (fs1, normal1, out1) => (fs1, normal1, local_jobs, out1)

/-- The tail of `Workflow.__finalize_queue` after both executors returned
normally: assert every queued job is in a terminal DONE state, recompute the
missing-or-stale outputs of every job with `Workflow._check_outputs`, raise
`IncompleteOutputs` if any job has some, and clear the queue on success.
This function is the list comprehension
`[(job, self._check_outputs(job.inputs, job.outputs)) for job in self.job_queue]`:
it evaluates `_check_outputs` for each queued job in order, letting the first
raise escape. -/
def collectIncomplete (fs : FS) : List Job → Except PyErr (List (List Path))
  | [] => .ok []
  | j :: js =>
    match check_outputs_list fs j.inputs j.outputs with
    | .error e => .error e
    | .ok m =>
      match collectIncomplete fs js with
      | .error e => .error e
      | .ok ms => .ok (m :: ms)

/-- The remainder of the `__finalize_queue` tail: the terminal-state assert,
the `IncompleteOutputs` raise when any per-job missing-or-stale list is
non-empty, and the queue reset on success. -/
def postRunChecks (fs : FS) (queue1 : List Job) (st : WFState)
    : Except PyErr Unit × FS × WFState :=
  if !(queue1.all (fun j => j.state == JobState.done)) then
    (.error .assertionError, fs, { st with job_queue := queue1 })
  else
    match collectIncomplete fs queue1 with
    | .error e => (.error e, fs, { st with job_queue := queue1 })
    | .ok missing_lists =>
      if missing_lists.any (fun m => m.length > 0) then
        (.error .incompleteOutputs, fs, { st with job_queue := queue1 })
      else (.ok (), fs, { st with job_queue := [] })

/-- `Workflow.__finalize_queue` (workflow.py lines 494-536).  In group mode a
non-empty queue is appended to the group's batches.  Otherwise the queue is
partitioned and run; an escaping `JobFailed` has the failing job's outputs
discarded before it propagates, the sibling failure classes propagate
untouched, and a normal return proceeds to the terminal-state assert and the
output-completeness check. -/
def finalizeQueue (runNormal runLocal : ExecRun) (fs : FS) (st : WFState)
    : Except PyErr Unit × FS × WFState :=
  if st.collect_group then
    if st.job_queue.length > 0 then
      (.ok (), fs,
        { st with group_job_batches := st.group_job_batches ++ [st.job_queue],
                  job_queue := [] })
    else (.ok (), fs, st)
  else
    match tryRunBatches runNormal runLocal fs st with
    | (fs1, normal1, local1, ExecOutcome.jobFailed j) =>
      (.error (.jobFailed j), discardFiles fs1 j.outputs,
        { st with job_queue := mergeByFlag st.job_queue normal1 local1 })
    | (fs1, normal1, local1, ExecOutcome.jobBatchFailed) =>
      (.error .jobBatchFailed, fs1,
        { st with job_queue := mergeByFlag st.job_queue normal1 local1 })
    | (fs1, normal1, local1, ExecOutcome.detachedJobsFailed) =>
      (.error .detachedJobsFailed, fs1,
        { st with job_queue := mergeByFlag st.job_queue normal1 local1 })
    | (fs1, normal1, local1, ExecOutcome.ok) =>
      postRunChecks fs1 (mergeByFlag st.job_queue normal1 local1) st

/-- `Workflow.execute_jobs` (workflow.py lines 477-492): finalize the queue
when it is non-empty, otherwise only log. -/
def executeJobs (runNormal runLocal : ExecRun) (fs : FS) (st : WFState)
    : Except PyErr Unit × FS × WFState :=
  if st.job_queue.length > 0 then finalizeQueue runNormal runLocal fs st
  else (.ok (), fs, st)

/-- Execution-mode decision of `LocalExecutor._run_jobs` (executors.py lines
126-132). -/
inductive RunMode where
  | serial : RunMode
  | parallel (max_workers : Nat) : RunMode
deriving DecidableEq

/-- `LocalExecutor._run_jobs`: `if threads == 1 and len(jobs) <= 1:` run
serially, `else` run through a `ThreadPoolExecutor(max_workers=threads)`. -/
def localRunMode (threads numJobs : Nat) : RunMode :=
  if threads = 1 ∧ numJobs ≤ 1 then RunMode.serial else RunMode.parallel threads

/-- A Python value as seen by `FileList.__init__` after argument collection:
a path, an already-built `FileList` (its stored items), or a plain list (any
non-path iterable). -/
inductive PyVal where
  | path (p : Path) : PyVal
  | fileList (items : List PyVal) : PyVal
  | pyList (items : List PyVal) : PyVal

mutual

/-- `FileList._to_paths` (container.py lines 32-42): a nested `FileList`
passes through, a path-convertible value becomes a `Path`, and any other
iterable is rebuilt as `FileList(*item)` (dicts become named `FileList`s,
which for counting purposes are the same). -/
def to_paths : PyVal → PyVal
  | .path p => .path p
  | .fileList items => .fileList items
  | .pyList items => .fileList (to_paths_list items)

def to_paths_list : List PyVal → List PyVal
  | [] => []
  | v :: vs => to_paths v :: to_paths_list vs

end

/-- The per-item summand of `FileList.__init__`'s length computation,
`len(item) if isinstance(item, list) else 1`: only a Python `list` counts
its elements; a `Path` or a nested `FileList` counts 1. -/
def lenItem : PyVal → Nat
  | .pyList l => l.length
  | _ => 1

/-- `FileList.__init__` (container.py lines 20-30): store
`_items = tuple(_to_paths(item) for item in items)` (positional and named
items concatenated) and precompute `_len` as the sum of `lenItem` over the
stored items. -/
def mkFileListItems (raw : List PyVal) : List PyVal := to_paths_list raw

/-- `FileList.__len__` via the precomputed `self._len`. -/
def fileListLen (raw : List PyVal) : Nat :=
  ((mkFileListItems raw).map lenItem).sum

mutual

/-- `FileList.__iter__` (container.py lines 63-69): yield a `Path` item
directly, otherwise iterate the nested item, which recursively flattens. -/
def iterPaths : PyVal → List Path
  | .path p => [p]
  | .fileList items => iterPathsList items
  | .pyList items => iterPathsList items

def iterPathsList : List PyVal → List Path
  | [] => []
  | v :: vs => iterPaths v ++ iterPathsList vs

end

/-- The individual paths obtained by iterating a `FileList` built from the
given raw items. -/
def fileListLeaves (raw : List PyVal) : List Path :=
  iterPathsList (mkFileListItems raw)

/-- File contents view for the status-tracking protocol: maps a path to the
text content of the file as a character sequence (`none` = the file does not
exist). -/
abbrev StatusFS := Path → Option (List Char)

/-- Python `str.strip()` on a character sequence. -/
def trimChars (l : List Char) : List Char :=
  ((l.dropWhile Char.isWhitespace).reverse.dropWhile Char.isWhitespace).reverse

/-- A non-empty all-digit character sequence read as a natural number;
anything else raises `ValueError`. -/
def digitsToInt (d : List Char) : Except PyErr Int :=
  if d.length > 0 && d.all Char.isDigit then
    .ok (Int.ofNat (d.foldl (fun acc c => 10 * acc + (c.toNat - 48)) 0))
  else .error (.valueError "invalid literal for int")

/-- Python `int(s)` on the text read from a status file: surrounding
whitespace allowed, then an optional sign and a non-empty digit string;
anything else raises `ValueError`. -/
def pyInt (s : List Char) : Except PyErr Int :=
  match trimChars s with
  | '-' :: rest => (digitsToInt rest).map Int.neg
  | '+' :: rest => digitsToInt rest
  | l => digitsToInt l

/-- `AbstractAction.get_status` (actions.py lines 18-32) for a tracked action
whose status file lives at `status_path`: -2 when the file does not exist,
otherwise `read(16)` takes at most the first 16 characters; -1 when that read
is empty, else the integer parsed from it. -/
def get_status (fs : StatusFS) (status_path : Path) : Except PyErr Int :=
  match fs status_path with
  | none => .ok (-2)
  | some content =>
    let exit_code := content.take 16
    if exit_code.length = 0 then .ok (-1)
    else pyInt exit_code

/-- `Job.__init__` (workflow.py lines 710-742): rejects a local-only action
unless `exec_local` is set; the job starts WAITING with exit code -1. -/
def Job.init (name : String) (index : Option Int) (exec_local : Bool)
    (inputs outputs : List Path) (action : ActionKind) (threads : Nat)
    (pre post : List JCond) : Except PyErr Job :=
  if action.local_only && !exec_local then
    .error (.valueError "Must set exec_local=True for local-only action")
  else
    .ok
      { name := name, index := index, exec_local := exec_local, inputs := inputs,
        outputs := outputs, action := action, threads := threads,
        state := JobState.waiting, exit_code := -1,
        pre_conditions := pre, post_conditions := post }

/-! ### Helper lemmas -/

theorem inputMtimeAux_eq (fs : FS) :
    ∀ ins : List Path, (∀ p ∈ ins, (fs p).isSome) → ∀ acc : ETime,
      inputMtimeAux fs acc ins = .ok (inputMtimeDAux fs acc ins) := by
  intro ins
  induction ins with
  | nil => intro _ acc; rfl
  | cons p ps ih =>
    intro h acc
    obtain ⟨t, ht⟩ := Option.isSome_iff_exists.mp (h p (List.mem_cons_self p ps))
    have hps : ∀ q ∈ ps, (fs q).isSome := fun q hq => h q (List.mem_cons_of_mem p hq)
    simp only [inputMtimeAux, inputMtimeDAux, statMtime, ht]
    exact ih hps _

theorem inputMtime_eq (fs : FS) (ins : List Path) (h : ∀ p ∈ ins, (fs p).isSome) :
    inputMtime fs ins = .ok (inputMtimeD fs ins) :=
  inputMtimeAux_eq fs ins h ETime.negInf

theorem inputMtimeAux_error_shape (fs : FS) :
    ∀ (ins : List Path) (acc : ETime) (e : PyErr),
      inputMtimeAux fs acc ins = .error e → ∃ q, e = .fileNotFound q := by
  intro ins
  induction ins with
  | nil => intro acc e h; simp [inputMtimeAux] at h
  | cons p ps ih =>
    intro acc e h
    simp only [inputMtimeAux, statMtime] at h
    cases hp : fs p with
    | none =>
      rw [hp] at h
      simp only [] at h
      exact ⟨p, (Except.error.injEq _ _).mp h.symm ▸ rfl⟩
    | some t =>
      rw [hp] at h
      exact ih _ e h

theorem inputMtime_error_shape (fs : FS) (ins : List Path) (e : PyErr)
    (h : inputMtime fs ins = .error e) : ∃ q, e = .fileNotFound q :=
  inputMtimeAux_error_shape fs ins ETime.negInf e h

theorem uptodate_cond_iff (I O : ETime) :
    (¬O = ETime.negInf ∧ ETime.lt O I = false) ↔
      (if I = ETime.negInf then O ≠ ETime.negInf else ETime.le I O = true) := by
  cases I <;> cases O <;> simp [ETime.lt, ETime.le]

/-! ### C1 -/

/-- **C1** — The up-to-date predicate of `Workflow.check_up_to_date`: with
`I` the maximum input mtime (`-∞` when the job has no inputs) and `O` the
minimum output mtime (`-∞` when any output is missing), the check passes
iff `O ≥ I`, where for `I = -∞` this means `O > -∞`, i.e. at least one
output exists (an empty output list makes `O = +∞`, which also passes). -/
theorem c1_up_to_date_predicate (fs : FS) (ins outs : List Path)
    (h : ∀ p ∈ ins, (fs p).isSome) :
    check_up_to_date fs ins outs = .ok () ↔
      (if inputMtimeD fs ins = ETime.negInf
       then outputMtime fs outs ≠ ETime.negInf
       else ETime.le (inputMtimeD fs ins) (outputMtime fs outs) = true) := by
  rw [← uptodate_cond_iff]
  unfold check_up_to_date
  rw [inputMtime_eq fs ins h]
  by_cases hO : outputMtime fs outs = ETime.negInf
  · simp [hO]
  · by_cases hlt : ETime.lt (outputMtime fs outs) (inputMtimeD fs ins) = true
    · simp [hO, hlt]
    · simp only [Bool.not_eq_true] at hlt
      simp [hO, hlt]

/-- File system for the C1 witness: one input older than one output. -/
def fsW1 : FS := fun p => if p = "w1in" then some 1 else if p = "w1out" then some 2 else none

/-- Witness for C1: a job whose single output is newer than its single input
is judged up-to-date. -/
theorem c1_witness : check_up_to_date fsW1 ["w1in"] ["w1out"] = .ok () := by
  refine (c1_up_to_date_predicate fsW1 ["w1in"] ["w1out"] (by decide)).mpr ?_
  have h1 : inputMtimeD fsW1 ["w1in"] = ETime.fin 1 := rfl
  have h2 : outputMtime fsW1 ["w1out"] = ETime.fin 2 := rfl
  rw [h1, h2]
  decide

/-! ### C2 -/

/-- The empty file system. -/
def fsEmpty : FS := fun _ => none

/-- An executor oracle that runs nothing (never reached under `dry_run`). -/
def noRun : ExecRun := fun jobs fs => (fs, jobs, ExecOutcome.ok)

/-- A freshly collected WAITING job with no declared files, for the C2
configuration. -/
def jobC2 : Job :=
  { name := "transform", index := none, exec_local := false, inputs := [],
    outputs := [], action := ActionKind.shellScript, threads := 1,
    state := JobState.waiting, exit_code := -1,
    pre_conditions := [JCond.checkInputs],
    post_conditions := [JCond.checkUpToDate] }

/-- Orchestrator state holding one queued job, with `dry_run` enabled and
`print_commands` disabled. -/
def stC2 : WFState :=
  { job_queue := [jobC2], jobs := fun _ => none, collect_group := false,
    group_job_batches := [], force := false, dry_run := true,
    print_commands := false, threads := 1 }

/-- **C2** — Dry run does NOT mark jobs DONE unconditionally: with
`print_commands` disabled, `AbstractExecutor._dry_run` does nothing (the
`job.done()` call sits inside the `if print_commands:` branch), the queued
job stays WAITING, and the flush fails the code's own
`assert job.state.is_done` (workflow.py line 526); with `print_commands`
enabled the same flush marks the job DONE and succeeds.  This evaluates the
embedded code at the failing input of the code-bug report. -/
theorem c2_dry_run_code_bug :
    (executeJobs noRun noRun fsEmpty stC2).1 = .error .assertionError ∧
    (executeJobs noRun noRun fsEmpty stC2).2.2.job_queue.map Job.state
      = [JobState.waiting] ∧
    (executeJobs noRun noRun fsEmpty { stC2 with print_commands := true }).1
      = .ok () ∧
    (executeJobs noRun noRun fsEmpty { stC2 with print_commands := true }).2.1
      = fsEmpty := by
  exact ⟨rfl, rfl, rfl, rfl⟩

/-! ### C3 -/

theorem check_outputs_list_error_shape (fs : FS) (ins outs : List Path) (e : PyErr)
    (h : check_outputs_list fs ins outs = .error e) : ∃ q, e = .fileNotFound q := by
  unfold check_outputs_list at h
  cases hin : inputMtime fs ins with
  | error e2 =>
    rw [hin] at h
    have he : e2 = e := by simpa using h
    exact he ▸ inputMtime_error_shape fs ins e2 hin
  | ok im => rw [hin] at h; simp at h

theorem collectIncomplete_ne_jobFailed (fs : FS) (j : Job) :
    ∀ q : List Job, collectIncomplete fs q ≠ .error (.jobFailed j) := by
  intro q
  induction q with
  | nil => simp [collectIncomplete]
  | cons a as ih =>
    intro h
    simp only [collectIncomplete] at h
    cases hc : check_outputs_list fs a.inputs a.outputs with
    | error e =>
      rw [hc] at h
      obtain ⟨p, hp⟩ := check_outputs_list_error_shape fs a.inputs a.outputs e hc
      subst hp
      simp at h
    | ok m =>
      rw [hc] at h
      cases hr : collectIncomplete fs as with
      | error e =>
        rw [hr] at h
        have he : e = .jobFailed j := by simpa using h
        exact ih (he ▸ hr)
      | ok ms => rw [hr] at h; simp at h

theorem postRunChecks_ne_jobFailed (fs : FS) (q : List Job) (st : WFState) (j : Job) :
    (postRunChecks fs q st).1 ≠ .error (.jobFailed j) := by
  unfold postRunChecks
  split
  · simp
  · cases hc : collectIncomplete fs q with
    | error e =>
      intro h
      simp only [hc] at h
      have he : e = .jobFailed j := by simpa using h
      exact collectIncomplete_ne_jobFailed fs j q (he ▸ hc)
    | ok ms =>
      simp only [hc]
      split <;> simp

/-- **C3** — Failure cleanup on flush: whenever `execute_jobs` propagates a
`JobFailed` exception, the `except JobFailed` clause of
`Workflow.__finalize_queue` has already discarded every declared output path
of the failing job, so none of those paths exists in the resulting file
system.  Quantified over arbitrary executor behaviour. -/
theorem c3_failure_cleanup (runNormal runLocal : ExecRun) (fs : FS)
    (st : WFState) (j : Job)
    (h : (executeJobs runNormal runLocal fs st).1 = .error (.jobFailed j)) :
    ∀ p ∈ j.outputs, (executeJobs runNormal runLocal fs st).2.1 p = none := by
  intro p hp
  unfold executeJobs at h ⊢
  by_cases hq : st.job_queue.length > 0
  · rw [if_pos hq] at h ⊢
    unfold finalizeQueue at h ⊢
    by_cases hg : st.collect_group = true
    · rw [if_pos hg] at h
      split at h <;> simp at h
    · rw [if_neg hg] at h ⊢
      rcases htr : tryRunBatches runNormal runLocal fs st with ⟨fs1, normal1, local1, out⟩
      cases out with
      | ok =>
        rw [htr] at h
        exact absurd h
          (postRunChecks_ne_jobFailed fs1 (mergeByFlag st.job_queue normal1 local1) st j)
      | jobFailed j2 =>
        rw [htr] at h
        have hj : j2 = j := by simpa using h
        subst hj
        simp [discardFiles, hp]
      | jobBatchFailed => rw [htr] at h; simp at h
      | detachedJobsFailed => rw [htr] at h; simp at h
  · rw [if_neg hq] at h
    simp at h

/-- The C3 witness job: a normal job with one declared output. -/
def jobW3 : Job :=
  { name := "boom", index := none, exec_local := false, inputs := [],
    outputs := ["w3out"], action := ActionKind.shellScript, threads := 1,
    state := JobState.waiting, exit_code := -1,
    pre_conditions := [JCond.checkInputs],
    post_conditions := [JCond.checkUpToDate] }

/-- An executor oracle whose batch fails with `JobFailed(jobW3)` after the
job's command already created its output. -/
def failRun : ExecRun :=
  fun jobs fs =>
    (fun p => if p = "w3out" then some 7 else fs p, jobs, ExecOutcome.jobFailed jobW3)

/-- Orchestrator state with the C3 witness job queued. -/
def stW3 : WFState :=
  { job_queue := [jobW3], jobs := fun _ => none, collect_group := false,
    group_job_batches := [], force := false, dry_run := false,
    print_commands := false, threads := 1 }

/-- Witness for C3: when the flush propagates `JobFailed(jobW3)`, the
declared output `w3out` does not exist afterwards even though the failed run
had created it. -/
theorem c3_witness :
    (executeJobs failRun failRun fsEmpty stW3).2.1 "w3out" = none :=
  c3_failure_cleanup failRun failRun fsEmpty stW3 jobW3 rfl "w3out" (by decide)

/-! ### C4 -/

theorem registryInsert_lookup (r : Registry) (job : Job) (r1 : Registry)
    (h : registryInsert r job = .ok r1) :
    regLookup r1 job.name job.index = some job := by
  unfold registryInsert at h
  cases hidx : job.index with
  | none =>
    simp only [hidx] at h
    cases hr : r job.name with
    | none =>
      simp only [hr] at h
      have hr1 : r1 = fun n => if n = job.name then some (.single job) else r n := by
        simpa using h.symm
      subst hr1
      simp [regLookup, hidx]
    | some e => simp only [hr] at h; simp at h
  | some i =>
    simp only [hidx] at h
    cases hr : r job.name with
    | none =>
      simp only [hr] at h
      have hr1 : r1 = fun n =>
          if n = job.name then some (.indexed (fun k => if k = i then some job else none))
          else r n := by
        simpa using h.symm
      subst hr1
      simp [regLookup, hidx]
    | some e =>
      simp only [hr] at h
      cases e with
      | single j2 => simp at h
      | indexed m =>
        cases hm : m i with
        | some j2 => simp only [hm] at h; simp at h
        | none =>
          simp only [hm] at h
          have hr1 : r1 = fun n =>
              if n = job.name then some (.indexed (fun k => if k = i then some job else m k))
              else r n := by
            simpa using h.symm
          subst hr1
          simp [regLookup, hidx]

/-- A job whose post-conditions pass (no inputs, no outputs — the up-to-date
check accepts an empty output list), used to exhibit the group-mode
counterexample to C4. -/
def jobG4 : Job :=
  { name := "extract", index := none, exec_local := false, inputs := [],
    outputs := [], action := ActionKind.shellScript, threads := 1,
    state := JobState.waiting, exit_code := -1,
    pre_conditions := [JCond.checkInputs],
    post_conditions := [JCond.checkUpToDate] }

/-- Orchestrator state inside an open `grouped_jobs` context with
`force=false`. -/
def stG4 : WFState :=
  { job_queue := [], jobs := fun _ => none, collect_group := true,
    group_job_batches := [], force := false, dry_run := false,
    print_commands := false, threads := 1 }

/-- **C4 counterexample** — the claim's "with force=false the job is
appended to the pending queue if and only if its post-conditions currently
fail" is false inside an open `grouped_jobs` context: there `__collect_job`
appends unconditionally, so a job whose post-conditions pass is still queued
although `force` is unset. -/
theorem c4_counterexample :
    stG4.force = false ∧
    Job.post_check fsEmpty jobG4 = true ∧
    (collectJob fsEmpty stG4 jobG4).2.job_queue = stG4.job_queue ++ [jobG4] ∧
    (collectJob fsEmpty stG4 jobG4).1 = .ok () :=
  ⟨rfl, rfl, rfl, rfl⟩

/-- **C4 (amended)** — Queue selectivity of `collect_job` outside an open
group: every call that returns without raising appends the job to the
pending queue iff `force` is set or the job's post-conditions currently
fail (so with `force=true` every job is queued), and inserts the job into
the registry under its name and index.  (Inside an open group the job is
appended unconditionally, and a `DuplicateJob` call raises without
inserting.) -/
theorem c4_queue_selectivity_amended (fs : FS) (st : WFState) (job : Job)
    (hg : st.collect_group = false)
    (hok : (collectJob fs st job).1 = .ok ()) :
    ((collectJob fs st job).2.job_queue = st.job_queue ++ [job] ↔
      (st.force = true ∨ Job.post_check fs job = false)) ∧
    regLookup (collectJob fs st job).2.jobs job.name job.index = some job := by
  unfold collectJob at hok ⊢
  rw [hg] at hok ⊢
  simp only [Bool.false_eq_true, if_false] at hok ⊢
  cases hpre : Job.check_pre_conditions fs job with
  | error e => simp only [hpre] at hok; simp at hok
  | ok u =>
    simp only [hpre] at hok ⊢
    cases hfp : (st.force || !Job.post_check fs job) with
    | true =>
      simp only [hfp, if_true] at hok ⊢
      cases hins : registryInsert st.jobs job with
      | error e => simp only [hins] at hok; simp at hok
      | ok r1 =>
        simp only [hins] at hok ⊢
        have hsp : st.force = true ∨ Job.post_check fs job = false := by
          rcases Bool.or_eq_true_iff.mp hfp with hf | hp
          · exact Or.inl hf
          · right
            cases hb : Job.post_check fs job
            · rfl
            · rw [hb] at hp; simp at hp
        constructor
        · exact iff_of_true trivial hsp
        · exact registryInsert_lookup st.jobs job r1 hins
    | false =>
      simp only [hfp, if_false] at hok ⊢
      cases hins : registryInsert st.jobs job with
      | error e => simp only [hins] at hok; simp at hok
      | ok r1 =>
        simp only [hins] at hok ⊢
        constructor
        · refine iff_of_false ?_ ?_
          · intro hcontr
            have := congrArg List.length hcontr
            simp at this
          · intro hcontr
            have hsp : st.force = false ∧ Job.post_check fs job = true := by
              simpa using hfp
            rcases hcontr with hf | hp
            · exact absurd hf (by simp [hsp.1])
            · exact absurd hp (by simp [hsp.2])
        · exact registryInsert_lookup st.jobs job r1 hins

/-- The C4 witness job: one declared output that does not exist, so its
post-conditions fail and it must be queued. -/
def jobW4 : Job :=
  { name := "stale", index := none, exec_local := false, inputs := [],
    outputs := ["w4out"], action := ActionKind.shellScript, threads := 1,
    state := JobState.waiting, exit_code := -1,
    pre_conditions := [JCond.checkInputs],
    post_conditions := [JCond.checkUpToDate] }

/-- Orchestrator state for the C4 witness: empty queue and registry, no
group, no force. -/
def stW4 : WFState :=
  { job_queue := [], jobs := fun _ => none, collect_group := false,
    group_job_batches := [], force := false, dry_run := false,
    print_commands := false, threads := 1 }

/-- Witness for the amended C4 at a concrete successful call. -/
theorem c4_witness :
    ((collectJob fsEmpty stW4 jobW4).2.job_queue = stW4.job_queue ++ [jobW4] ↔
      (stW4.force = true ∨ Job.post_check fsEmpty jobW4 = false)) ∧
    regLookup (collectJob fsEmpty stW4 jobW4).2.jobs jobW4.name jobW4.index
      = some jobW4 :=
  c4_queue_selectivity_amended fsEmpty stW4 jobW4 rfl rfl

/-! ### C5 -/

/-- **C5 counterexample** — the claim's "if one thread is configured …, the
jobs are run sequentially" is false: a batch of 2 jobs with `threads=1`
takes the `else` branch of `LocalExecutor._run_jobs` (the source condition
is `threads == 1 AND len(jobs) <= 1`) and is run through a thread pool of
size 1, not sequentially. -/
theorem c5_counterexample :
    localRunMode 1 2 = RunMode.parallel 1 ∧ RunMode.parallel 1 ≠ RunMode.serial := by
  decide

/-- **C5 (amended)** — `LocalExecutor` runs a batch sequentially iff one
thread is configured AND the batch has at most one job; in every other case
it uses a thread pool sized to the configured `threads`. -/
theorem c5_mode_selection_amended (threads numJobs : Nat) :
    (localRunMode threads numJobs = RunMode.serial ↔ (threads = 1 ∧ numJobs ≤ 1)) ∧
    (localRunMode threads numJobs = RunMode.serial ∨
      localRunMode threads numJobs = RunMode.parallel threads) := by
  unfold localRunMode
  constructor
  · split
    · next hcond => exact iff_of_true rfl hcond
    · next hcond => exact iff_of_false (by simp) hcond
  · split
    · exact Or.inl rfl
    · exact Or.inr rfl

/-- Witness for the amended C5 at a concrete input. -/
theorem c5_witness :
    (localRunMode 4 1 = RunMode.serial ↔ (4 = 1 ∧ 1 ≤ 1)) ∧
    (localRunMode 4 1 = RunMode.serial ∨ localRunMode 4 1 = RunMode.parallel 4) :=
  c5_mode_selection_amended 4 1

/-! ### C6 -/

/-- `FileList._to_paths` never yields a Python `list`: the
`isinstance(item, list)` branch of the `_len` computation is dead code. -/
theorem lenItem_to_paths (v : PyVal) : lenItem (to_paths v) = 1 := by
  cases v <;> rfl

/-- The raw constructor arguments `FileList("0", ["1", "2"])`. -/
def rawC6 : List PyVal :=
  [PyVal.path "0", PyVal.pyList [PyVal.path "1", PyVal.path "2"]]

/-- **C6** — `len(FileList("0", ["1", "2"]))` evaluates to 2 (each stored
item counts 1 because `_to_paths` only ever yields `Path` or `FileList`,
never a Python `list`, so the `len(item) if isinstance(item, list)` branch
never fires) while iterating the same list yields 3 leaf paths: the length
does NOT equal the number of leaf paths.  This evaluates the embedded code
at the failing input of the code-bug report. -/
theorem c6_filelist_len_code_bug :
    fileListLen rawC6 = 2 ∧
    (fileListLeaves rawC6).length = 3 ∧
    (mkFileListItems rawC6).all (fun item => lenItem item == 1) = true := by
  exact ⟨rfl, rfl, rfl⟩

/-! ### C7 -/

/-- **C7** — `get_status` of a tracked action returns -2 when the status
file does not exist, -1 when it exists but is empty, and otherwise the
integer parsed (by Python `int`) from the first 16 characters of the
file. -/
theorem c7_get_status (fs : StatusFS) (status_path : Path) :
    (fs status_path = none → get_status fs status_path = .ok (-2)) ∧
    (fs status_path = some [] → get_status fs status_path = .ok (-1)) ∧
    (∀ s, fs status_path = some s → s ≠ [] →
      get_status fs status_path = pyInt (s.take 16)) := by
  refine ⟨?_, ?_, ?_⟩
  · intro h; unfold get_status; rw [h]
  · intro h; unfold get_status; rw [h]; rfl
  · intro s h hne
    have hlen : (s.take 16).length ≠ 0 := by
      rw [List.length_take]
      have hpos : 0 < s.length := List.length_pos.mpr hne
      omega
    unfold get_status
    rw [h]
    show (if (s.take 16).length = 0 then Except.ok (-1) else pyInt (s.take 16))
      = pyInt (s.take 16)
    rw [if_neg hlen]

/-- Status-file contents for the C7 witness: one tracked file holding
"42\n", one empty file. -/
def statusFs7 : StatusFS := fun p =>
  if p = "status/ab" then some ['4', '2', '\n']
  else if p = "status/empty" then some []
  else none

/-- Witness for C7: all three branches at concrete status files, and the
parse of "42\n" evaluating to 42. -/
theorem c7_witness :
    get_status statusFs7 "status/missing" = .ok (-2) ∧
    get_status statusFs7 "status/empty" = .ok (-1) ∧
    get_status statusFs7 "status/ab" = pyInt (['4', '2', '\n'].take 16) ∧
    pyInt (['4', '2', '\n'].take 16) = .ok 42 :=
  ⟨(c7_get_status statusFs7 "status/missing").1 rfl,
    (c7_get_status statusFs7 "status/empty").2.1 rfl,
    (c7_get_status statusFs7 "status/ab").2.2 ['4', '2', '\n'] rfl (by decide),
    rfl⟩

/-! ### C8 -/

/-- **C8** — `Job.__init__` enforces `action.local_only ⇒ exec_local`:
constructing a job with the local-only `PythonCode` action and
`exec_local=False` raises `ValueError`, with `exec_local=True` it succeeds,
a `ShellScript` action succeeds for either value, and every successfully
constructed job satisfies the invariant.  (`local_only` itself is modelled
from the spec; see `ActionKind.local_only`.) -/
theorem c8_local_only_invariant (name : String) (index : Option Int)
    (inputs outputs : List Path) (threads : Nat) (pre post : List JCond) :
    (Job.init name index false inputs outputs ActionKind.pythonCode threads pre post
      = .error (.valueError "Must set exec_local=True for local-only action")) ∧
    (∃ j, Job.init name index true inputs outputs ActionKind.pythonCode threads pre post
      = .ok j) ∧
    (∀ el : Bool, ∃ j,
      Job.init name index el inputs outputs ActionKind.shellScript threads pre post
        = .ok j) ∧
    (∀ (action : ActionKind) (el : Bool) (j : Job),
      Job.init name index el inputs outputs action threads pre post = .ok j →
      action.local_only = true → j.exec_local = true) := by
  refine ⟨rfl, ⟨_, rfl⟩, fun el =>
    ⟨{ name := name, index := index, exec_local := el, inputs := inputs,
       outputs := outputs, action := ActionKind.shellScript, threads := threads,
       state := JobState.waiting, exit_code := -1,
       pre_conditions := pre, post_conditions := post }, rfl⟩, ?_⟩
  intro action el j h hlo
  cases action with
  | shellScript => simp [ActionKind.local_only] at hlo
  | pythonCode =>
    cases el with
    | false => simp [Job.init, ActionKind.local_only] at h
    | true =>
      have hj := Except.ok.inj h
      rw [← hj]

/-- Witness for C8: the failing construction at concrete arguments. -/
theorem c8_witness :
    Job.init "pyjob" none false [] [] ActionKind.pythonCode 1 [] []
      = .error (.valueError "Must set exec_local=True for local-only action") :=
  (c8_local_only_invariant "pyjob" none [] [] 1 [] []).1

/-! ### C9 -/

theorem runCond_ne_duplicate (fs : FS) (ins outs : List Path) (c : JCond) :
    runCond fs ins outs c ≠ .error .duplicateJob := by
  cases c with
  | checkInputs => simp only [runCond]; split <;> simp
  | checkUpToDate =>
    show check_up_to_date fs ins outs ≠ .error .duplicateJob
    unfold check_up_to_date
    cases hin : inputMtime fs ins with
    | error e =>
      simp only []
      intro h
      obtain ⟨q, hq⟩ := inputMtime_error_shape fs ins e hin
      subst hq
      simp at h
    | ok im =>
      simp only []
      split
      · simp
      · split <;> simp
  | custom raises => simp only [runCond]; split <;> simp

theorem runConds_ne_duplicate (fs : FS) (ins outs : List Path) :
    ∀ cs : List JCond, runConds fs ins outs cs ≠ .error .duplicateJob := by
  intro cs
  induction cs with
  | nil => simp [runConds]
  | cons c cs ih =>
    unfold runConds
    cases hc : runCond fs ins outs c with
    | error e =>
      simp only []
      intro h
      have he : e = .duplicateJob := by simpa using h
      exact runCond_ne_duplicate fs ins outs c (he ▸ hc)
    | ok u => simp only []; exact ih

/-- **C9** — `collect_job` is not atomic on `DuplicateJob`: whenever the
call raises `DuplicateJob` and the job would have been queued (group mode,
or `force`, or failing post-conditions), the queue-append at the top of
`__collect_job` has already happened, so the pending queue ends with the
duplicate job and the next flush will dispatch it. -/
theorem c9_duplicate_queue_mutation (fs : FS) (st : WFState) (job : Job)
    (hdup : (collectJob fs st job).1 = .error .duplicateJob)
    (hq : st.collect_group = true ∨ st.force = true ∨ Job.post_check fs job = false) :
    (collectJob fs st job).2.job_queue = st.job_queue ++ [job] := by
  unfold collectJob at hdup ⊢
  by_cases hg : st.collect_group = true
  · simp only [hg, if_true] at hdup ⊢
    cases hins : registryInsert st.jobs job with
    | ok r1 => simp only [hins] at hdup; simp at hdup
    | error e => simp only [hins]
  · have hg0 : st.collect_group = false := by
      cases hcg : st.collect_group
      · rfl
      · exact absurd hcg hg
    rw [hg0] at hdup ⊢
    simp only [Bool.false_eq_true, if_false] at hdup ⊢
    cases hpre : Job.check_pre_conditions fs job with
    | error e =>
      simp only [hpre] at hdup
      have he : e = .duplicateJob := by simpa using hdup
      exact absurd (he ▸ hpre) (runConds_ne_duplicate fs job.inputs job.outputs _)
    | ok u =>
      simp only [hpre] at hdup ⊢
      have hfp : (st.force || !Job.post_check fs job) = true := by
        rcases hq with hcg | hf | hp
        · rw [hg0] at hcg; simp at hcg
        · simp [hf]
        · simp [hp]
      simp only [hfp, if_true] at hdup ⊢
      cases hins : registryInsert st.jobs job with
      | ok r1 => simp only [hins] at hdup; simp at hdup
      | error e => simp only [hins]

/-- The C9 witness job. -/
def jobW9 : Job :=
  { name := "dup", index := none, exec_local := false, inputs := [],
    outputs := [], action := ActionKind.shellScript, threads := 1,
    state := JobState.waiting, exit_code := -1,
    pre_conditions := [JCond.checkInputs],
    post_conditions := [JCond.checkUpToDate] }

/-- Group-mode state whose registry already holds a job named "dup". -/
def stW9 : WFState :=
  { job_queue := [], jobs := fun n => if n = "dup" then some (.single jobW9) else none,
    collect_group := true, group_job_batches := [], force := false,
    dry_run := false, print_commands := false, threads := 1 }

/-- Witness for C9: collecting a duplicate of "dup" inside a group raises
`DuplicateJob` with the duplicate already appended to the queue. -/
theorem c9_witness :
    (collectJob fsEmpty stW9 jobW9).2.job_queue = stW9.job_queue ++ [jobW9] :=
  c9_duplicate_queue_mutation fsEmpty stW9 jobW9 rfl (Or.inl rfl)

/-! ### C10 -/

theorem filter_isNone_nil (fs : FS) (ins : List Path)
    (h : ∀ p ∈ ins, (fs p).isSome) :
    ins.filter (fun p => (fs p).isNone) = [] := by
  induction ins with
  | nil => rfl
  | cons p ps ih =>
    have hp : (fs p).isSome := h p (List.mem_cons_self p ps)
    have hps : ∀ q ∈ ps, (fs q).isSome := fun q hq => h q (List.mem_cons_of_mem p hq)
    cases hfs : fs p with
    | none => rw [hfs] at hp; simp at hp
    | some t => simp [List.filter_cons, hfs, ih hps]

theorem etime_lt_posInf_left (a : ETime) : ETime.lt ETime.posInf a = false := by
  cases a <;> rfl

/-- **C10** — A job with an empty declared output list always passes the
up-to-date check (the output minimum is seeded with `+∞`), so outside a
group with `force=false` and the default conditions it is never queued by
`collect_job`, and `_check_outputs` reports no missing outputs for it, so it
can never contribute to `IncompleteOutputs` after a flush. -/
theorem c10_empty_outputs (fs : FS) (ins : List Path)
    (h : ∀ p ∈ ins, (fs p).isSome) :
    check_up_to_date fs ins [] = .ok () ∧
    check_outputs_list fs ins [] = .ok [] ∧
    (∀ (st : WFState) (job : Job), st.collect_group = false → st.force = false →
      job.inputs = ins → job.outputs = [] →
      job.pre_conditions = [JCond.checkInputs] →
      job.post_conditions = [JCond.checkUpToDate] →
      (collectJob fs st job).2.job_queue = st.job_queue) := by
  have hin := inputMtime_eq fs ins h
  have h1 : check_up_to_date fs ins [] = .ok () := by
    unfold check_up_to_date
    simp only [hin]
    have hO : outputMtime fs [] = ETime.posInf := rfl
    rw [hO]
    simp [etime_lt_posInf_left]
  have h2 : check_outputs_list fs ins [] = .ok [] := by
    unfold check_outputs_list
    simp only [hin]
    rfl
  refine ⟨h1, h2, ?_⟩
  intro st job hg hf hi ho hpre hpost
  have hprec : Job.check_pre_conditions fs job = .ok () := by
    unfold Job.check_pre_conditions
    rw [hpre, hi]
    simp [runConds, runCond, filter_isNone_nil fs ins h]
  have hpostc : Job.post_check fs job = true := by
    unfold Job.post_check
    rw [hpost, hi, ho]
    simp [runConds, runCond, h1, pyThrows]
  unfold collectJob
  rw [hg]
  simp only [Bool.false_eq_true, if_false]
  simp only [hprec, hf, hpostc, Bool.not_true, Bool.or_false]
  simp only [Bool.false_eq_true, if_false]
  cases hins : registryInsert st.jobs job with
  | ok r1 => simp only [hins]
  | error e => simp only [hins]

/-- Input file for the C10 witness. -/
def fsW10 : FS := fun p => if p = "w10in" then some 5 else none

/-- The C10 witness job: one existing input, no declared outputs. -/
def jobW10 : Job :=
  { name := "sink", index := none, exec_local := false, inputs := ["w10in"],
    outputs := [], action := ActionKind.shellScript, threads := 1,
    state := JobState.waiting, exit_code := -1,
    pre_conditions := [JCond.checkInputs],
    post_conditions := [JCond.checkUpToDate] }

/-- Plain orchestrator state for the C10 witness. -/
def stW10 : WFState :=
  { job_queue := [], jobs := fun _ => none, collect_group := false,
    group_job_batches := [], force := false, dry_run := false,
    print_commands := false, threads := 1 }

/-- Witness for C10 at a concrete file system, job and state. -/
theorem c10_witness :
    check_up_to_date fsW10 ["w10in"] [] = .ok () ∧
    check_outputs_list fsW10 ["w10in"] [] = .ok [] ∧
    (collectJob fsW10 stW10 jobW10).2.job_queue = stW10.job_queue := by
  have h := c10_empty_outputs fsW10 ["w10in"] (by decide)
  exact ⟨h.1, h.2.1, h.2.2 stW10 jobW10 rfl rfl rfl rfl rfl rfl⟩

end Dentist
